import Mathlib

/-!
Verification development for the bluesky-queueserver RE Manager core.

The repository snapshot under verification contains the HTTP gateway
(server/server.py) and the ZMQ API test suite (manager/tests/test_zmq_api.py).
The manager core itself (plan queue operations, state machine, run tracker)
is exercised by those tests but its sources are not part of the snapshot,
so the definitions below are modelled from the specification (spec.md),
with the concrete behaviour pinned by the request/reply matrix encoded in
manager/tests/test_zmq_api.py.
-/

set_option autoImplicit false

namespace QServer

/-- Item type tag: an item is either a plan or an instruction (spec section 3). -/
inductive ItemType where
  | plan
  | instruction
deriving DecidableEq, Repr

/-- Modelled from the spec (section 3, Data Model): a queue item carries the
item type tag, the assigned item uid, the payload name (plan name or, for an
instruction, the action), the positional arguments, and the attributed user
and user group. -/
structure Item where
  item_type : ItemType
  item_uid : String
  name : String
  args : List String
  user : String
  user_group : String
deriving DecidableEq, Repr

/-- Raw plan payload as submitted by a client; a client may (illegally)
supply an item uid, which the manager discards on accept. -/
structure RawPlan where
  name : String
  args : List String
  item_uid : Option String
deriving DecidableEq, Repr

/-- Raw instruction payload as submitted by a client. -/
structure RawInstr where
  action : String
  item_uid : Option String
deriving DecidableEq, Repr

/-- Position parameter of the wire protocol: the symbolic strings front and
back, an integer position, or any other (invalid) string. -/
inductive PosParam where
  | front
  | back
  | intPos (p : Int)
  | strOther (s : String)
deriving DecidableEq, Repr

/-- Modelled from the spec (section 3): manager state relevant to the queue
API, namely the ordered queue, the optional running slot and the history. -/
structure QueueState where
  queue : List Item
  running : Option Item
  history : List Item
deriving DecidableEq, Repr

/-- All items of the observable window: queue, running slot and history. -/
def QueueState.allItems (s : QueueState) : List Item :=
  s.queue ++ s.running.toList ++ s.history

/-- Insert an element before position i (append at the end when i is the
length of the list or larger). -/
def insertAt (l : List Item) (i : Nat) (x : Item) : List Item :=
  l.take i ++ x :: l.drop i

/-- Modelled from the spec (section 6, position vocabulary): an integer
position for queue_item_add is interpreted from the back when negative and
clamped to the segment from 0 to the queue length. -/
def clampIdx (n : Nat) (p : Int) : Nat :=
  let i : Int := if p < 0 then p + n else p
  (min (max i 0) (n : Int)).toNat

/-- Request payload for queue_item_add (open mapping of the wire protocol,
section 6). -/
structure AddRequest where
  plan : Option RawPlan
  instruction : Option RawInstr
  user : Option String
  user_group : Option String
  pos : Option PosParam
  before_uid : Option String
  after_uid : Option String
deriving DecidableEq, Repr

/-- Reply of queue_item_add: success flag, message, qsize (null on failure)
and the echo of the processed item under the key matching its type. -/
structure AddReply where
  success : Bool
  msg : String
  qsize : Option Nat
  plan : Option Item
  instruction : Option Item
deriving DecidableEq, Repr

/-- Number of positional or identity selectors supplied with an add request;
more than one is ambiguous (spec section 4.3). -/
def selCount (req : AddRequest) : Nat :=
  (if req.pos.isSome then 1 else 0)
    + (if req.before_uid.isSome then 1 else 0)
    + (if req.after_uid.isSome then 1 else 0)

/-- Modelled from the spec (section 4.2): build the candidate item from the
request payload; the plan payload takes precedence, the client supplied uid
is discarded and replaced by the fresh uid from the identifier service. -/
def mkCandidate (freshUid : String) (req : AddRequest) : Option Item :=
  match req.plan with
  | some p =>
      some ⟨ItemType.plan, freshUid, p.name, p.args,
            req.user.getD "", req.user_group.getD ""⟩
  | none =>
      match req.instruction with
      | some ins =>
          some ⟨ItemType.instruction, freshUid, ins.action, [],
                req.user.getD "", req.user_group.getD ""⟩
      | none => none

/-- Message of the rejection of an insertion before the running item
(spec section 4.3 and scenario S4). -/
def cannotInsertBeforeRunningMsg : String :=
  "Can not insert a plan in the queue before a currently running plan"

/-- Modelled from the spec (sections 4.3 and 6): resolve the placement of a
new item. Exactly one selector may be supplied. An integer position is
clamped; before_uid pointing at the running item is rejected; after_uid
pointing at the running item inserts at the front of the queue; a uid that
is neither running nor in the queue fails. -/
def placeItem (req : AddRequest) (s : QueueState) (item : Item) :
    Except String (List Item) :=
  if 1 < selCount req then
    Except.error "Ambiguous parameters: pos, before_uid and after_uid"
  else
    match req.before_uid, req.after_uid, req.pos with
    | some u, _, _ =>
        if s.running.any (fun r => r.item_uid == u) then
          Except.error cannotInsertBeforeRunningMsg
        else
          match s.queue.findIdx? (fun it => it.item_uid == u) with
          | some i => Except.ok (insertAt s.queue i item)
          | none => Except.error ("Plan with UID " ++ u ++ " is not in the queue")
    | none, some u, _ =>
        if s.running.any (fun r => r.item_uid == u) then
          Except.ok (item :: s.queue)
        else
          match s.queue.findIdx? (fun it => it.item_uid == u) with
          | some i => Except.ok (insertAt s.queue (i + 1) item)
          | none => Except.error ("Plan with UID " ++ u ++ " is not in the queue")
    | none, none, some PosParam.front => Except.ok (item :: s.queue)
    | none, none, some PosParam.back => Except.ok (s.queue ++ [item])
    | none, none, some (PosParam.intPos p) =>
        Except.ok (insertAt s.queue (clampIdx s.queue.length p) item)
    | none, none, some (PosParam.strOther _) =>
        Except.error "Parameter pos has an incorrect value"
    | none, none, none => Except.ok (s.queue ++ [item])

/-- Outcome of the queue_item_add pipeline before the reply is assembled. -/
inductive AddOutcome where
  | noItem
  | fail (msg : String) (item : Item)
  | ok (item : Item) (newQueue : List Item)
deriving DecidableEq, Repr

/-- The processed item of an outcome, when the request carried one. -/
def AddOutcome.itemOf : AddOutcome → Option Item
  | AddOutcome.noItem => none
  | AddOutcome.fail _ it => some it
  | AddOutcome.ok it _ => some it

/-- Modelled from the spec (sections 4.2, 4.3): the validation pipeline of
queue_item_add. The request must carry an item payload, a user name and a
known user group; a plan name must be in the allow list of the group; then
the item is placed. The validator is parametrized by the known groups and
the allow list of each group (the external catalogue, spec section 4.2). -/
def queueItemAddCore (groups : List String) (plansFor : String → List String)
    (freshUid : String) (req : AddRequest) (s : QueueState) : AddOutcome :=
  match mkCandidate freshUid req with
  | none => AddOutcome.noItem
  | some item =>
      if req.user.isNone then
        AddOutcome.fail "Failed to add an item: user name is not specified" item
      else if req.user_group.isNone then
        AddOutcome.fail "Failed to add an item: user group is not specified" item
      else if !(groups.contains (req.user_group.getD "")) then
        AddOutcome.fail ("Unknown user group: " ++ req.user_group.getD "") item
      else if item.item_type == ItemType.plan
          && !((plansFor (req.user_group.getD "")).contains item.name) then
        AddOutcome.fail ("Plan " ++ item.name ++ " is not in the list of allowed plans") item
      else
        match placeItem req s item with
        | Except.error m => AddOutcome.fail m item
        | Except.ok q2 => AddOutcome.ok item q2

/-- Assemble a reply that echoes the processed item under the key matching
its item type (plan or instruction). -/
def echoReply (success : Bool) (msg : String) (qsize : Option Nat) (item : Item) :
    AddReply :=
  match item.item_type with
  | ItemType.plan => ⟨success, msg, qsize, some item, none⟩
  | ItemType.instruction => ⟨success, msg, qsize, none, some item⟩

/-- Modelled from the spec (sections 4.3, 4.7, 6): the queue_item_add
handler. A request without item info fails and the reply carries no item
echo; any other failure echoes the processed item with a null qsize; on
success the item is stored and qsize is the new queue size. -/
def queueItemAdd (groups : List String) (plansFor : String → List String)
    (freshUid : String) (req : AddRequest) (s : QueueState) :
    AddReply × QueueState :=
  match queueItemAddCore groups plansFor freshUid req s with
  | AddOutcome.noItem =>
      (⟨false, "Incorrect request format: request contains no item info.",
        none, none, none⟩, s)
  | AddOutcome.fail m item => (echoReply false m none item, s)
  | AddOutcome.ok item q2 =>
      (echoReply true "" (some q2.length) item,
       QueueState.mk q2 s.running s.history)

/-- Request payload for queue_item_get and queue_item_remove: an optional
position and an optional uid selector. -/
structure GetRequest where
  pos : Option PosParam
  uid : Option String
deriving DecidableEq, Repr

/-- Reply of queue_item_get: the item field is none when the reply carries
the empty mapping. -/
structure GetReply where
  success : Bool
  msg : String
  item : Option Item
deriving DecidableEq, Repr

/-- Reply of queue_item_remove. -/
structure RemoveReply where
  success : Bool
  msg : String
  item : Option Item
  qsize : Option Nat
deriving DecidableEq, Repr

/-- Resolution of a get or remove selector. -/
inductive SelResult where
  | ambiguous
  | runningItem
  | found (i : Nat)
  | notFoundUid (u : String)
  | badPos
deriving DecidableEq, Repr

/-- Message head of every failing queue_item_get reply. -/
def failedToGetItemMsg : String := "Failed to get an item"

/-- Message head of every failing queue_item_remove reply. -/
def failedToRemoveItemMsg : String := "Failed to remove an item"

/-- Modelled from the spec (sections 4.3 and 6): resolve the selector of a
get or remove request. Supplying both pos and uid is ambiguous; a missing
selector defaults to the back of the queue; an out of range integer
position fails; a uid resolving to the running slot is flagged. -/
def resolveSel (req : GetRequest) (s : QueueState) : SelResult :=
  match req.pos, req.uid with
  | some _, some _ => SelResult.ambiguous
  | none, some u =>
      if s.running.any (fun r => r.item_uid == u) then SelResult.runningItem
      else
        match s.queue.findIdx? (fun it => it.item_uid == u) with
        | some i => SelResult.found i
        | none => SelResult.notFoundUid u
  | p, none =>
      let n := s.queue.length
      match p.getD PosParam.back with
      | PosParam.front => if n = 0 then SelResult.badPos else SelResult.found 0
      | PosParam.back => if n = 0 then SelResult.badPos else SelResult.found (n - 1)
      | PosParam.intPos q =>
          let i : Int := if q < 0 then q + n else q
          if 0 ≤ i ∧ i < (n : Int) then SelResult.found i.toNat else SelResult.badPos
      | PosParam.strOther _ => SelResult.badPos

/-- Modelled from the spec (sections 4.3 and 6): the queue_item_get
handler; read only. -/
def queueItemGet (req : GetRequest) (s : QueueState) : GetReply :=
  match resolveSel req s with
  | SelResult.ambiguous =>
      ⟨false, "Ambiguous parameters: pos and uid", none⟩
  | SelResult.runningItem =>
      ⟨false, failedToGetItemMsg ++ ": the item is currently running", none⟩
  | SelResult.notFoundUid u =>
      ⟨false, failedToGetItemMsg ++ ": plan with UID " ++ u ++ " is not in the queue", none⟩
  | SelResult.badPos =>
      ⟨false, failedToGetItemMsg ++ ": the position is out of range", none⟩
  | SelResult.found i => ⟨true, "", s.queue[i]?⟩

/-- Modelled from the spec (sections 4.3 and 6): the queue_item_remove
handler; on success the item at the resolved position is removed atomically
and qsize is the new queue size, any failure leaves the state unchanged. -/
def queueItemRemove (req : GetRequest) (s : QueueState) :
    RemoveReply × QueueState :=
  match resolveSel req s with
  | SelResult.ambiguous =>
      (⟨false, "Ambiguous parameters: pos and uid", none, none⟩, s)
  | SelResult.runningItem =>
      (⟨false, failedToRemoveItemMsg
          ++ ": Can not remove an item which is currently running", none, none⟩, s)
  | SelResult.notFoundUid u =>
      (⟨false, failedToRemoveItemMsg ++ ": plan with UID " ++ u
          ++ " is not in the queue", none, none⟩, s)
  | SelResult.badPos =>
      (⟨false, failedToRemoveItemMsg ++ ": the position is out of range", none, none⟩, s)
  | SelResult.found i =>
      (⟨true, "", s.queue[i]?, some (s.queue.eraseIdx i).length⟩,
       QueueState.mk (s.queue.eraseIdx i) s.running s.history)

/-- Modelled from the spec (section 4.3, instruction semantics): one
queue_start cycle consumes leading plans, each promoted to the running slot,
executed and committed to history, until the head of the queue is an
instruction (queue_stop), which is removed without being promoted, or the
queue is exhausted. Returns the promoted plans in execution order and the
remaining queue. -/
def queueStartCycle : List Item → List Item × List Item
  | [] => ([], [])
  | it :: rest =>
      if it.item_type = ItemType.instruction then ([], rest)
      else
        let r := queueStartCycle rest
        (it :: r.1, r.2)

/-- One queue_start cycle on the pair of queue and history: executed plans
are appended to the history in order. -/
def startCycleState (s : List Item × List Item) : List Item × List Item :=
  ((queueStartCycle s.1).2, s.2 ++ (queueStartCycle s.1).1)

/-- Entry of the run list: the run uid and its open flag (spec section 3). -/
structure RunEntry where
  uid : String
  is_open : Bool
deriving DecidableEq, Repr

/-- Modelled from the spec (section 4.6): the run tracker keeps the ordered
run list and the run list token. The opaque token of the identifier service
is modelled by a counter, so that every structural change produces a value
never seen before in the same execution. -/
structure RunTracker where
  runs : List RunEntry
  run_list_uid : Nat
deriving DecidableEq, Repr

/-- Events pushed by the worker: a run was opened or closed. -/
inductive RunEvent where
  | opened (uid : String)
  | closed (uid : String)
deriving DecidableEq, Repr

/-- Modelled from the spec (section 4.6): apply one worker event; an opened
run is appended as open, a closed event flips the flag of the matching run;
both structural changes rotate the run list token. -/
def RunTracker.applyEv (t : RunTracker) : RunEvent → RunTracker
  | RunEvent.opened u =>
      RunTracker.mk (t.runs ++ [RunEntry.mk u true]) (t.run_list_uid + 1)
  | RunEvent.closed u =>
      RunTracker.mk
        (t.runs.map (fun e => if e.uid == u then RunEntry.mk e.uid false else e))
        (t.run_list_uid + 1)

/-- Modelled from the spec (section 4.6): reset clears the run list at plan
end and rotates the token even though the new list is empty. -/
def RunTracker.reset (t : RunTracker) : RunTracker :=
  RunTracker.mk [] (t.run_list_uid + 1)

/-- Fold a worker event sequence into the tracker. -/
def RunTracker.applyAll (t : RunTracker) (evs : List RunEvent) : RunTracker :=
  evs.foldl RunTracker.applyEv t

/-- The sequence of tracker states observed along a plan execution,
beginning with the initial state. -/
def RunTracker.statesOf (t : RunTracker) : List RunEvent → List RunTracker
  | [] => [t]
  | e :: evs => t :: RunTracker.statesOf (t.applyEv e) evs

/-- Reply of the re_runs method. -/
structure ReRunsReply where
  success : Bool
  msg : String
  run_list : List RunEntry
deriving DecidableEq, Repr

/-- Modelled from the spec (sections 4.6 and 6): the re_runs handler; the
option defaults to active; active returns the full run list, open the
subset of open runs, closed the complement. -/
def reRuns (t : RunTracker) (option : Option String) : ReRunsReply :=
  let opt := option.getD "active"
  if opt == "active" then ⟨true, "", t.runs⟩
  else if opt == "open" then ⟨true, "", t.runs.filter (fun e => e.is_open)⟩
  else if opt == "closed" then ⟨true, "", t.runs.filter (fun e => !e.is_open)⟩
  else ⟨false, "Option value is invalid", []⟩

/-- Reply of the plans_allowed method; the result field is an optional
mapping so that an absent key and an empty mapping are distinguishable. -/
structure PlansAllowedReply where
  success : Bool
  msg : String
  plans_allowed : Option (List (String × String))
deriving DecidableEq, Repr

/-- Reply of the devices_allowed method. -/
structure DevicesAllowedReply where
  success : Bool
  msg : String
  devices_allowed : Option (List (String × String))
deriving DecidableEq, Repr

/-- Modelled from the spec (sections 4.2 and 6) and the reply matrix of
test_zmq_api_plans_allowed_and_devices_allowed_3_fail: the plans_allowed
handler returns the allow list of the group; a missing or unknown user
group fails, and the failing reply still carries the plans_allowed field
holding an empty mapping. The external catalogue is the parameter perms. -/
def plansAllowed (perms : String → Option (List (String × String)))
    (user_group : Option String) : PlansAllowedReply :=
  match user_group with
  | none =>
      ⟨false, "Incorrect request format: user group is not specified", some []⟩
  | some g =>
      match perms g with
      | some m => ⟨true, "", some m⟩
      | none => ⟨false, "Unknown user group: " ++ g, some []⟩

/-- Modelled from the spec (sections 4.2 and 6) and the reply matrix of
test_zmq_api_plans_allowed_and_devices_allowed_3_fail: same contract as
plans_allowed, for the device allow list. -/
def devicesAllowed (perms : String → Option (List (String × String)))
    (user_group : Option String) : DevicesAllowedReply :=
  match user_group with
  | none =>
      ⟨false, "Incorrect request format: user group is not specified", some []⟩
  | some g =>
      match perms g with
      | some m => ⟨true, "", some m⟩
      | none => ⟨false, "Unknown user group: " ++ g, some []⟩

/-- Known user groups of the sample catalogue used by concrete scenarios. -/
def sampleGroups : List String := ["admin"]

/-- Allow list of the sample catalogue used by concrete scenarios. -/
def samplePlansFor : String → List String := fun _ => ["count", "scan"]

/-- Concrete plan item used by concrete scenarios. -/
def itemA : Item :=
  ⟨ItemType.plan, "uid-a", "count", ["det1"], "Testing Script", "admin"⟩

/-- Concrete plan item used by concrete scenarios. -/
def itemB : Item :=
  ⟨ItemType.plan, "uid-b", "count", ["det2"], "Testing Script", "admin"⟩

/-- Concrete plan item used by concrete scenarios. -/
def itemC : Item :=
  ⟨ItemType.plan, "uid-c", "count", ["det1", "det2"], "Testing Script", "admin"⟩

/-- Concrete queue_stop instruction item used by concrete scenarios. -/
def instrStopA : Item :=
  ⟨ItemType.instruction, "uid-i1", "queue_stop", [], "Testing Script", "admin"⟩

/-- Concrete queue_stop instruction item used by concrete scenarios. -/
def instrStopB : Item :=
  ⟨ItemType.instruction, "uid-i2", "queue_stop", [], "Testing Script", "admin"⟩

/-- Concrete three item queue state used by concrete scenarios. -/
def sampleState3 : QueueState := ⟨[itemA, itemB, itemC], none, []⟩

/-- Concrete raw plan payload used by concrete scenarios. -/
def samplePlan : RawPlan := ⟨"count", ["det1", "det2"], none⟩

/-- Request with neither plan nor instruction info, used as a concrete
malformed input. -/
def noItemReq : AddRequest :=
  ⟨none, none, some "Testing Script", some "no_such_group", none, none, none⟩

/-- Sample permission catalogue with the single group admin. -/
def samplePerms : String → Option (List (String × String)) :=
  fun g => if g == "admin" then some [("count", "plan count"), ("scan", "plan scan")] else none

/-- Concrete run tracker used by concrete scenarios. -/
def sampleTracker : RunTracker := ⟨[], 0⟩

/-- Concrete worker event sequence of a three run plan (scenario S7). -/
def sampleEvents : List RunEvent :=
  [RunEvent.opened "r1", RunEvent.opened "r2", RunEvent.closed "r2",
   RunEvent.opened "r3", RunEvent.closed "r3", RunEvent.closed "r1"]

theorem insertAt_zero (l : List Item) (x : Item) : insertAt l 0 x = x :: l := rfl

theorem insertAt_length (l : List Item) (x : Item) :
    insertAt l l.length x = l ++ [x] := by
  simp [insertAt]

theorem clampIdx_high (n : Nat) (p : Int) (h : (n : Int) ≤ p) : clampIdx n p = n := by
  simp only [clampIdx]
  omega

theorem clampIdx_low (n : Nat) (p : Int) (h : p + n < 0) : clampIdx n p = 0 := by
  simp only [clampIdx]
  omega

theorem mem_insertAt (l : List Item) (j : Nat) (x a : Item) :
    a ∈ insertAt l j x ↔ a = x ∨ a ∈ l := by
  constructor
  · intro h
    rcases List.mem_append.mp h with h1 | h2
    · exact Or.inr (List.mem_of_mem_take h1)
    · rcases List.mem_cons.mp h2 with h3 | h4
      · exact Or.inl h3
      · exact Or.inr (List.mem_of_mem_drop h4)
  · intro h
    rcases h with h | h
    · subst h
      exact List.mem_append.mpr (Or.inr (List.mem_cons_self a (l.drop j)))
    · have := List.take_append_drop j l
      rw [← this] at h
      rcases List.mem_append.mp h with h1 | h2
      · exact List.mem_append.mpr (Or.inl h1)
      · exact List.mem_append.mpr (Or.inr (List.mem_cons_of_mem _ h2))

theorem countP_insertAt (l : List Item) (j : Nat) (x : Item) (p : Item → Bool) :
    (insertAt l j x).countP p = l.countP p + (if p x then 1 else 0) := by
  have h := List.take_append_drop j l
  calc (insertAt l j x).countP p
      = (l.take j).countP p + ((l.drop j).countP p + if p x then 1 else 0) := by
        simp [insertAt, List.countP_append, List.countP_cons]
    _ = ((l.take j).countP p + (l.drop j).countP p) + (if p x then 1 else 0) := by omega
    _ = l.countP p + (if p x then 1 else 0) := by
        rw [← List.countP_append, h]

theorem echoReply_success (b : Bool) (m : String) (q : Option Nat) (it : Item) :
    (echoReply b m q it).success = b := by
  cases h : it.item_type <;> simp [echoReply, h]

theorem echoReply_msg (b : Bool) (m : String) (q : Option Nat) (it : Item) :
    (echoReply b m q it).msg = m := by
  cases h : it.item_type <;> simp [echoReply, h]

theorem echoReply_qsize (b : Bool) (m : String) (q : Option Nat) (it : Item) :
    (echoReply b m q it).qsize = q := by
  cases h : it.item_type <;> simp [echoReply, h]

theorem echoReply_plan_of_plan (b : Bool) (m : String) (q : Option Nat) (it : Item)
    (h : it.item_type = ItemType.plan) : (echoReply b m q it).plan = some it := by
  simp [echoReply, h]

theorem echoReply_instr_of_instr (b : Bool) (m : String) (q : Option Nat) (it : Item)
    (h : it.item_type = ItemType.instruction) :
    (echoReply b m q it).instruction = some it := by
  simp [echoReply, h]

theorem echoReply_item (b : Bool) (m : String) (q : Option Nat) (it : Item) :
    (echoReply b m q it).plan = some it ∨ (echoReply b m q it).instruction = some it := by
  cases h : it.item_type
  · exact Or.inl (echoReply_plan_of_plan b m q it h)
  · exact Or.inr (echoReply_instr_of_instr b m q it h)

theorem mkCandidate_uid (f : String) (req : AddRequest) (it : Item)
    (h : mkCandidate f req = some it) : it.item_uid = f := by
  unfold mkCandidate at h
  cases hp : req.plan with
  | some p => rw [hp] at h; injection h with h; rw [← h]
  | none =>
      rw [hp] at h
      cases hi : req.instruction with
      | some ins => rw [hi] at h; injection h with h; rw [← h]
      | none => rw [hi] at h; exact absurd h (by simp)

theorem itemOf_queueItemAddCore (groups : List String) (plansFor : String → List String)
    (f : String) (req : AddRequest) (s : QueueState) :
    (queueItemAddCore groups plansFor f req s).itemOf = mkCandidate f req := by
  unfold queueItemAddCore
  cases hm : mkCandidate f req with
  | none => rfl
  | some item =>
      simp only []
      repeat' split
      all_goals rfl

theorem mkCandidate_none_iff (f : String) (req : AddRequest) :
    mkCandidate f req = none ↔ req.plan = none ∧ req.instruction = none := by
  unfold mkCandidate
  cases hp : req.plan <;> cases hi : req.instruction <;> simp

theorem mkCandidate_plan (f : String) (req : AddRequest) (p : RawPlan)
    (hp : req.plan = some p) :
    mkCandidate f req
      = some ⟨ItemType.plan, f, p.name, p.args,
              req.user.getD "", req.user_group.getD ""⟩ := by
  unfold mkCandidate
  rw [hp]

theorem mkCandidate_instr (f : String) (req : AddRequest) (ins : RawInstr)
    (hp : req.plan = none) (hi : req.instruction = some ins) :
    mkCandidate f req
      = some ⟨ItemType.instruction, f, ins.action, [],
              req.user.getD "", req.user_group.getD ""⟩ := by
  unfold mkCandidate
  rw [hp, hi]

theorem placeItem_ok_shape (req : AddRequest) (s : QueueState) (item : Item)
    (q2 : List Item) (h : placeItem req s item = Except.ok q2) :
    ∃ j, q2 = insertAt s.queue j item := by
  unfold placeItem at h
  repeat' split at h
  all_goals
    first
      | exact Except.noConfusion h
      | (injection h with h
         first
           | exact ⟨_, h.symm⟩
           | exact ⟨0, by rw [insertAt_zero]; exact h.symm⟩
           | exact ⟨s.queue.length, by rw [insertAt_length]; exact h.symm⟩)

theorem queueItemAddCore_ok_shape (groups : List String)
    (plansFor : String → List String) (f : String) (req : AddRequest)
    (s : QueueState) (it : Item) (q2 : List Item)
    (h : queueItemAddCore groups plansFor f req s = AddOutcome.ok it q2) :
    ∃ j, q2 = insertAt s.queue j it := by
  unfold queueItemAddCore at h
  split at h
  · exact AddOutcome.noConfusion h
  · split at h
    · exact AddOutcome.noConfusion h
    · split at h
      · exact AddOutcome.noConfusion h
      · split at h
        · exact AddOutcome.noConfusion h
        · split at h
          · exact AddOutcome.noConfusion h
          · split at h
            · exact AddOutcome.noConfusion h
            · rename_i hplace
              injection h with h1 h2
              subst h1
              subst h2
              exact placeItem_ok_shape _ _ _ _ hplace

theorem queueItemAdd_success_core (groups : List String)
    (plansFor : String → List String) (f : String) (req : AddRequest)
    (s : QueueState)
    (h : (queueItemAdd groups plansFor f req s).1.success = true) :
    ∃ it q2, queueItemAddCore groups plansFor f req s = AddOutcome.ok it q2 := by
  unfold queueItemAdd at h
  cases hc : queueItemAddCore groups plansFor f req s with
  | noItem => rw [hc] at h; exact absurd h (by simp)
  | fail m it => rw [hc] at h; rw [echoReply_success] at h; exact absurd h (by simp)
  | ok it q2 => exact ⟨it, q2, rfl⟩

/-- Claim C5: for every queue_item_add reply, a request without plan and
instruction keys yields a failing reply carrying neither key; a request
carrying an item gets it echoed back under the matching key even on
failure; qsize is null exactly on failure and the new queue size on
success. -/
theorem claim_C5_add_reply_echo_discipline (groups : List String)
    (plansFor : String → List String) (f : String) (req : AddRequest)
    (s : QueueState) (reply : AddReply) (s2 : QueueState)
    (heq : queueItemAdd groups plansFor f req s = (reply, s2)) :
    (req.plan = none → req.instruction = none →
        reply.plan = none ∧ reply.instruction = none ∧ reply.success = false)
    ∧ (∀ p, req.plan = some p →
        ∃ st, reply.plan = some st ∧ st.name = p.name ∧ st.args = p.args)
    ∧ (∀ ins, req.plan = none → req.instruction = some ins →
        ∃ st, reply.instruction = some st ∧ st.name = ins.action)
    ∧ (reply.success = false → reply.qsize = none)
    ∧ (reply.success = true → reply.qsize = some s2.queue.length) := by
  have hio := itemOf_queueItemAddCore groups plansFor f req s
  unfold queueItemAdd at heq
  cases hc : queueItemAddCore groups plansFor f req s with
  | noItem =>
      rw [hc] at heq
      injection heq with h1 h2
      subst h1
      subst h2
      rw [hc] at hio
      have hnone : mkCandidate f req = none := hio.symm
      refine ⟨fun _ _ => ⟨rfl, rfl, rfl⟩, ?_, ?_, fun _ => rfl, fun hs => absurd hs (by simp)⟩
      · intro p hp
        rw [mkCandidate_plan f req p hp] at hnone
        exact absurd hnone (by simp)
      · intro ins hp hi
        rw [mkCandidate_instr f req ins hp hi] at hnone
        exact absurd hnone (by simp)
  | fail m it =>
      rw [hc] at heq
      injection heq with h1 h2
      subst h1
      subst h2
      rw [hc] at hio
      have hcand : mkCandidate f req = some it := hio.symm
      refine ⟨?_, ?_, ?_, ?_, ?_⟩
      · intro hp hi
        rw [(mkCandidate_none_iff f req).mpr ⟨hp, hi⟩] at hcand
        exact absurd hcand (by simp)
      · intro p hp
        rw [mkCandidate_plan f req p hp] at hcand
        injection hcand with hcand
        refine ⟨it, echoReply_plan_of_plan _ _ _ _ ?_, ?_, ?_⟩
        · rw [← hcand]
        · rw [← hcand]
        · rw [← hcand]
      · intro ins hp hi
        rw [mkCandidate_instr f req ins hp hi] at hcand
        injection hcand with hcand
        refine ⟨it, echoReply_instr_of_instr _ _ _ _ ?_, ?_⟩
        · rw [← hcand]
        · rw [← hcand]
      · intro _
        rw [echoReply_qsize]
      · intro hs
        rw [echoReply_success] at hs
        exact absurd hs (by simp)
  | ok it q2 =>
      rw [hc] at heq
      injection heq with h1 h2
      subst h1
      subst h2
      rw [hc] at hio
      have hcand : mkCandidate f req = some it := hio.symm
      refine ⟨?_, ?_, ?_, ?_, ?_⟩
      · intro hp hi
        rw [(mkCandidate_none_iff f req).mpr ⟨hp, hi⟩] at hcand
        exact absurd hcand (by simp)
      · intro p hp
        rw [mkCandidate_plan f req p hp] at hcand
        injection hcand with hcand
        refine ⟨it, echoReply_plan_of_plan _ _ _ _ ?_, ?_, ?_⟩
        · rw [← hcand]
        · rw [← hcand]
        · rw [← hcand]
      · intro ins hp hi
        rw [mkCandidate_instr f req ins hp hi] at hcand
        injection hcand with hcand
        refine ⟨it, echoReply_instr_of_instr _ _ _ _ ?_, ?_⟩
        · rw [← hcand]
        · rw [← hcand]
      · intro hs
        rw [echoReply_success] at hs
        exact absurd hs (by simp)
      · intro _
        rw [echoReply_qsize]

/-- Witness for claim C5 at a concrete malformed request. -/
theorem claim_C5_add_reply_echo_discipline_witness :
    (queueItemAdd sampleGroups samplePlansFor "uid-new" noItemReq sampleState3).1.plan = none
    ∧ (queueItemAdd sampleGroups samplePlansFor "uid-new" noItemReq sampleState3).1.instruction = none
    ∧ (queueItemAdd sampleGroups samplePlansFor "uid-new" noItemReq sampleState3).1.success = false := by
  have h := claim_C5_add_reply_echo_discipline sampleGroups samplePlansFor
    "uid-new" noItemReq sampleState3
    (queueItemAdd sampleGroups samplePlansFor "uid-new" noItemReq sampleState3).1
    (queueItemAdd sampleGroups samplePlansFor "uid-new" noItemReq sampleState3).2
    rfl
  exact h.1 rfl rfl

/-- Claim C9: when plans_allowed or devices_allowed fails because the user
group is missing or unknown, the reply still carries the result field, and
its value is the empty mapping rather than being absent. -/
theorem claim_C9_allowed_failure_empty_map
    (perms : String → Option (List (String × String))) (ug : Option String) :
    ((plansAllowed perms ug).success = false →
        (plansAllowed perms ug).plans_allowed = some [])
    ∧ ((devicesAllowed perms ug).success = false →
        (devicesAllowed perms ug).devices_allowed = some [])
    ∧ (plansAllowed perms none).success = false
    ∧ (∀ g, ug = some g → perms g = none → (plansAllowed perms ug).success = false) := by
  refine ⟨?_, ?_, rfl, ?_⟩
  · intro h
    cases hu : ug with
    | none => simp [plansAllowed]
    | some g =>
        subst hu
        cases hp : perms g with
        | none => simp [plansAllowed, hp]
        | some m => simp [plansAllowed, hp] at h
  · intro h
    cases hu : ug with
    | none => simp [devicesAllowed]
    | some g =>
        subst hu
        cases hp : perms g with
        | none => simp [devicesAllowed, hp]
        | some m => simp [devicesAllowed, hp] at h
  · intro g hg hp
    subst hg
    simp [plansAllowed, hp]

/-- Witness for claim C9 at a concrete unknown user group. -/
theorem claim_C9_allowed_failure_empty_map_witness :
    (plansAllowed samplePerms (some "no_such_group")).plans_allowed = some []
    ∧ (devicesAllowed samplePerms (some "no_such_group")).devices_allowed = some [] := by
  have h := claim_C9_allowed_failure_empty_map samplePerms (some "no_such_group")
  exact ⟨h.1 rfl, h.2.1 rfl⟩

theorem applyEv_uid (t : RunTracker) (e : RunEvent) :
    (t.applyEv e).run_list_uid = t.run_list_uid + 1 := by
  cases e <;> rfl

theorem uid_le_applyAll (t : RunTracker) (evs : List RunEvent) :
    t.run_list_uid ≤ (t.applyAll evs).run_list_uid := by
  induction evs generalizing t with
  | nil => exact Nat.le_refl _
  | cons e evs ih =>
      have h1 := ih (t.applyEv e)
      rw [applyEv_uid] at h1
      exact Nat.le_trans (Nat.le_succ _) h1

theorem statesOf_uid_le (t : RunTracker) (evs : List RunEvent) :
    ∀ u ∈ t.statesOf evs, t.run_list_uid ≤ u.run_list_uid := by
  induction evs generalizing t with
  | nil =>
      intro u hu
      simp [RunTracker.statesOf] at hu
      rw [hu]
  | cons e evs ih =>
      intro u hu
      simp only [RunTracker.statesOf, List.mem_cons] at hu
      rcases hu with hu | hu
      · rw [hu]
      · have h1 := ih (t.applyEv e) u hu
        rw [applyEv_uid] at h1
        omega

theorem statesOf_le_applyAll (t : RunTracker) (evs : List RunEvent) :
    ∀ u ∈ t.statesOf evs, u.run_list_uid ≤ (t.applyAll evs).run_list_uid := by
  induction evs generalizing t with
  | nil =>
      intro u hu
      simp [RunTracker.statesOf] at hu
      rw [hu]
      exact Nat.le_refl _
  | cons e evs ih =>
      intro u hu
      simp only [RunTracker.statesOf, List.mem_cons] at hu
      rcases hu with hu | hu
      · rw [hu]
        exact uid_le_applyAll t (e :: evs)
      · exact ih (t.applyEv e) u hu

theorem statesOf_pairwise (t : RunTracker) (evs : List RunEvent) :
    List.Pairwise (fun a b => a.run_list_uid < b.run_list_uid) (t.statesOf evs) := by
  induction evs generalizing t with
  | nil => simp [RunTracker.statesOf]
  | cons e evs ih =>
      simp only [RunTracker.statesOf]
      refine List.Pairwise.cons ?_ (ih (t.applyEv e))
      intro u hu
      have h1 := statesOf_uid_le (t.applyEv e) evs u hu
      rw [applyEv_uid] at h1
      omega

/-- Claim C3: along any plan execution the run list token strictly grows at
every structural change, so it never repeats an earlier value; at plan end
the run list observed through re_runs is empty and its token differs from
the token of every earlier state, in particular from the last state with a
non empty run list. -/
theorem claim_C3_run_list_uid_monotone (t : RunTracker) (evs : List RunEvent) :
    List.Pairwise (fun a b => a.run_list_uid < b.run_list_uid) (t.statesOf evs)
    ∧ (reRuns ((t.applyAll evs).reset) none).run_list = []
    ∧ ∀ u ∈ t.statesOf evs,
        u.run_list_uid ≠ ((t.applyAll evs).reset).run_list_uid := by
  refine ⟨statesOf_pairwise t evs, rfl, ?_⟩
  intro u hu
  have h1 := statesOf_le_applyAll t evs u hu
  simp only [RunTracker.reset]
  omega

/-- Witness for claim C3 at a concrete three run event sequence. -/
theorem claim_C3_run_list_uid_monotone_witness :
    sampleTracker.run_list_uid
      ≠ ((sampleTracker.applyAll sampleEvents).reset).run_list_uid :=
  (claim_C3_run_list_uid_monotone sampleTracker sampleEvents).2.2
    sampleTracker (by decide)

/-- Claim C6: re_runs with option active returns the full run list, open
returns exactly the open entries and closed exactly the complement, both in
insertion order (they are sublists of the active list and together form a
permutation of it); a missing option behaves as active. -/
theorem claim_C6_re_runs_partition (t : RunTracker) :
    reRuns t none = reRuns t (some "active")
    ∧ (reRuns t (some "active")).run_list = t.runs
    ∧ (reRuns t (some "open")).run_list = t.runs.filter (fun e => e.is_open)
    ∧ (reRuns t (some "closed")).run_list = t.runs.filter (fun e => !e.is_open)
    ∧ List.Sublist (reRuns t (some "open")).run_list (reRuns t (some "active")).run_list
    ∧ List.Sublist (reRuns t (some "closed")).run_list (reRuns t (some "active")).run_list
    ∧ List.Perm
        ((reRuns t (some "open")).run_list ++ (reRuns t (some "closed")).run_list)
        (reRuns t (some "active")).run_list := by
  have ha : (reRuns t (some "active")).run_list = t.runs := rfl
  have ho : (reRuns t (some "open")).run_list = t.runs.filter (fun e => e.is_open) := rfl
  have hc : (reRuns t (some "closed")).run_list = t.runs.filter (fun e => !e.is_open) := rfl
  refine ⟨rfl, ha, ho, hc, ?_, ?_, ?_⟩
  · rw [ho, ha]
    exact List.filter_sublist _
  · rw [hc, ha]
    exact List.filter_sublist _
  · rw [ho, hc, ha]
    exact List.filter_append_perm _ _

/-- Claim C2: a queue_stop instruction at the head of the queue is never
promoted to the running slot: every item promoted during a queue_start
cycle is a plan, a leading instruction is consumed without execution, and
the concrete queue of scenario S5 leaves 3, 1, 0 items in the queue and
0, 1, 2 items in the history over three successive cycles. -/
theorem claim_C2_queue_stop_never_promoted :
    (∀ (q : List Item), ∀ it ∈ (queueStartCycle q).1, it.item_type = ItemType.plan)
    ∧ (∀ (it : Item) (q : List Item), it.item_type = ItemType.instruction →
        queueStartCycle (it :: q) = ([], q))
    ∧ (let s1 := startCycleState ([instrStopA, itemA, instrStopB, itemB], [])
       let s2 := startCycleState s1
       let s3 := startCycleState s2
       (s1.1.length = 3 ∧ s1.2.length = 0)
         ∧ (s2.1.length = 1 ∧ s2.2.length = 1)
         ∧ (s3.1.length = 0 ∧ s3.2.length = 2)) := by
  refine ⟨?_, ?_, ?_⟩
  · intro q
    induction q with
    | nil =>
        intro it h
        simp [queueStartCycle] at h
    | cons a rest ih =>
        intro it h
        by_cases ha : a.item_type = ItemType.instruction
        · simp [queueStartCycle, ha] at h
        · simp only [queueStartCycle, if_neg ha] at h
          rcases List.mem_cons.mp h with h1 | h1
          · subst h1
            cases hty : it.item_type
            · rfl
            · exact absurd hty ha
          · exact ih it h1
  · intro it q h
    simp [queueStartCycle, h]
  · decide

/-- Witness for claim C2 at a concrete promoted plan and a concrete leading
instruction. -/
theorem claim_C2_queue_stop_never_promoted_witness :
    itemA.item_type = ItemType.plan
    ∧ queueStartCycle [instrStopA, itemA] = ([], [itemA]) :=
  ⟨claim_C2_queue_stop_never_promoted.1 [itemA, instrStopA] itemA (by decide),
   claim_C2_queue_stop_never_promoted.2.1 instrStopA [itemA] (by decide)⟩

/-- Claim C4: while an item is running, queue_item_add with before_uid equal
to the running item uid fails with the message about inserting before a
currently running plan and leaves the state unchanged, while queue_item_add
with after_uid equal to the running item uid succeeds and places the new
item at the front of the queue. -/
theorem claim_C4_insert_relative_to_running (groups : List String)
    (plansFor : String → List String) (f u g : String) (p : RawPlan)
    (s : QueueState) (r : Item)
    (hrun : s.running = some r)
    (hg : groups.contains g = true)
    (hp : (plansFor g).contains p.name = true) :
    (let rb := queueItemAdd groups plansFor f
        ⟨some p, none, some u, some g, none, some r.item_uid, none⟩ s
     rb.1.success = false ∧ rb.1.msg = cannotInsertBeforeRunningMsg ∧ rb.2 = s)
    ∧ (let ra := queueItemAdd groups plansFor f
        ⟨some p, none, some u, some g, none, none, some r.item_uid⟩ s
       ra.1.success = true
         ∧ ∃ stored, ra.1.plan = some stored ∧ ra.2.queue = stored :: s.queue) := by
  have hgm : g ∈ groups := by simpa using hg
  have hpm : p.name ∈ plansFor g := by simpa using hp
  constructor
  · have hcore : queueItemAddCore groups plansFor f
        ⟨some p, none, some u, some g, none, some r.item_uid, none⟩ s
        = AddOutcome.fail cannotInsertBeforeRunningMsg
            ⟨ItemType.plan, f, p.name, p.args, u, g⟩ := by
      simp [queueItemAddCore, mkCandidate, placeItem, selCount, hrun, hg, hp, hgm, hpm]
    simp [queueItemAdd, hcore, echoReply]
  · have hcore : queueItemAddCore groups plansFor f
        ⟨some p, none, some u, some g, none, none, some r.item_uid⟩ s
        = AddOutcome.ok ⟨ItemType.plan, f, p.name, p.args, u, g⟩
            (⟨ItemType.plan, f, p.name, p.args, u, g⟩ :: s.queue) := by
      simp [queueItemAddCore, mkCandidate, placeItem, selCount, hrun, hg, hp, hgm, hpm]
    refine ⟨?_, ⟨ItemType.plan, f, p.name, p.args, u, g⟩, ?_, ?_⟩
    · simp [queueItemAdd, hcore, echoReply]
    · simp [queueItemAdd, hcore, echoReply]
    · simp [queueItemAdd, hcore]

/-- Concrete running item used by the witness of claim C4. -/
def runningItemR : Item :=
  ⟨ItemType.plan, "uid-run", "count", ["det1", "det2"], "Testing Script", "admin"⟩

/-- Concrete state with a running item used by the witness of claim C4. -/
def stateWithRunning : QueueState := ⟨[itemB], some runningItemR, []⟩

/-- Witness for claim C4 at a concrete running state. -/
theorem claim_C4_insert_relative_to_running_witness :
    (queueItemAdd sampleGroups samplePlansFor "uid-new"
        ⟨some samplePlan, none, some "Testing Script", some "admin", none,
         some runningItemR.item_uid, none⟩ stateWithRunning).1.success = false
    ∧ (queueItemAdd sampleGroups samplePlansFor "uid-new"
        ⟨some samplePlan, none, some "Testing Script", some "admin", none,
         none, some runningItemR.item_uid⟩ stateWithRunning).1.success = true := by
  have h := claim_C4_insert_relative_to_running sampleGroups samplePlansFor
    "uid-new" "Testing Script" "admin" samplePlan stateWithRunning runningItemR
    rfl (by decide) (by decide)
  exact ⟨h.1.1, h.2.1⟩

/-- Claim C7: every item accepted by queue_item_add is stored with the
fresh uid of the identifier service: the stored uid is non empty, does not
occur anywhere in the queue, running slot or history, occurs exactly once
in the new window, and differs from any uid the client supplied, which is
discarded and replaced. The identifier service (spec section 4.1) is
modelled by the parameter f together with its collision resistance
contract expressed as the freshness hypotheses. -/
theorem claim_C7_accepted_item_uid_fresh (groups : List String)
    (plansFor : String → List String) (f : String) (req : AddRequest)
    (s : QueueState) (reply : AddReply) (s2 : QueueState)
    (heq : queueItemAdd groups plansFor f req s = (reply, s2))
    (hfresh : f ∉ s.allItems.map Item.item_uid)
    (hne : f ≠ "")
    (hok : reply.success = true) :
    ∃ stored, (reply.plan = some stored ∨ reply.instruction = some stored)
      ∧ stored.item_uid = f
      ∧ stored.item_uid ≠ ""
      ∧ stored.item_uid ∉ s.allItems.map Item.item_uid
      ∧ s2.allItems.countP (fun it => it.item_uid == f) = 1
      ∧ (∀ rp cu, req.plan = some rp → rp.item_uid = some cu → f ≠ cu →
            stored.item_uid ≠ cu)
      ∧ (∀ ri cu, req.instruction = some ri → ri.item_uid = some cu → f ≠ cu →
            stored.item_uid ≠ cu) := by
  have hs : (queueItemAdd groups plansFor f req s).1.success = true := by
    rw [heq]
    exact hok
  obtain ⟨it, q2, hc⟩ := queueItemAdd_success_core groups plansFor f req s hs
  have hcand : mkCandidate f req = some it := by
    have hio := itemOf_queueItemAddCore groups plansFor f req s
    rw [hc] at hio
    exact hio.symm
  have huid : it.item_uid = f := mkCandidate_uid f req it hcand
  obtain ⟨j, hq2⟩ := queueItemAddCore_ok_shape groups plansFor f req s it q2 hc
  unfold queueItemAdd at heq
  rw [hc] at heq
  injection heq with h1 h2
  subst h1
  subst h2
  have hnotin : ∀ a ∈ s.allItems, ¬ (a.item_uid == f) = true := by
    intro a ha hbeq
    exact hfresh (List.mem_map.mpr ⟨a, ha, eq_of_beq hbeq⟩)
  have hq0 : s.queue.countP (fun it2 => it2.item_uid == f) = 0 := by
    apply List.countP_eq_zero.mpr
    intro a ha
    exact hnotin a (by simp [QueueState.allItems, ha])
  have hr0 : s.running.toList.countP (fun it2 => it2.item_uid == f) = 0 := by
    apply List.countP_eq_zero.mpr
    intro a ha
    exact hnotin a (by simp [QueueState.allItems, ha])
  have hh0 : s.history.countP (fun it2 => it2.item_uid == f) = 0 := by
    apply List.countP_eq_zero.mpr
    intro a ha
    exact hnotin a (by simp [QueueState.allItems, ha])
  refine ⟨it, echoReply_item _ _ _ _, huid, by rw [huid]; exact hne,
    by rw [huid]; exact hfresh, ?_, ?_, ?_⟩
  · subst hq2
    unfold QueueState.allItems
    simp only [List.countP_append]
    rw [countP_insertAt]
    simp only [huid, beq_self_eq_true, if_true]
    omega
  · intro rp cu _ _ hnecu
    rw [huid]
    exact hnecu
  · intro ri cu _ _ hnecu
    rw [huid]
    exact hnecu

/-- Witness for claim C7 at a concrete add to the sample three item queue. -/
theorem claim_C7_accepted_item_uid_fresh_witness :
    ∃ stored,
      ((queueItemAdd sampleGroups samplePlansFor "uid-new"
          ⟨some samplePlan, none, some "Testing Script", some "admin",
           none, none, none⟩ sampleState3).1.plan = some stored
        ∨ (queueItemAdd sampleGroups samplePlansFor "uid-new"
          ⟨some samplePlan, none, some "Testing Script", some "admin",
           none, none, none⟩ sampleState3).1.instruction = some stored)
      ∧ stored.item_uid = "uid-new"
      ∧ stored.item_uid ≠ ""
      ∧ stored.item_uid ∉ sampleState3.allItems.map Item.item_uid
      ∧ (queueItemAdd sampleGroups samplePlansFor "uid-new"
          ⟨some samplePlan, none, some "Testing Script", some "admin",
           none, none, none⟩ sampleState3).2.allItems.countP
          (fun it => it.item_uid == "uid-new") = 1
      ∧ (∀ rp cu,
          (⟨some samplePlan, none, some "Testing Script", some "admin",
            none, none, none⟩ : AddRequest).plan = some rp →
          rp.item_uid = some cu → "uid-new" ≠ cu → stored.item_uid ≠ cu)
      ∧ (∀ ri cu,
          (⟨some samplePlan, none, some "Testing Script", some "admin",
            none, none, none⟩ : AddRequest).instruction = some ri →
          ri.item_uid = some cu → "uid-new" ≠ cu → stored.item_uid ≠ cu) :=
  claim_C7_accepted_item_uid_fresh sampleGroups samplePlansFor "uid-new"
    ⟨some samplePlan, none, some "Testing Script", some "admin", none, none, none⟩
    sampleState3 _ _ rfl (by decide) (by decide) (by decide)

/-- Claim C8: queue_item_add with pos equal to -1 into a three item queue
places the new item at index 2 of the resulting queue, shifting the
original last item one position to the right. -/
theorem claim_C8_add_pos_minus_one (groups : List String)
    (plansFor : String → List String) (f u g : String) (p : RawPlan)
    (a b c : Item) (rn : Option Item) (hist : List Item)
    (hg : groups.contains g = true)
    (hp : (plansFor g).contains p.name = true) :
    let ra := queueItemAdd groups plansFor f
      ⟨some p, none, some u, some g, some (PosParam.intPos (-1)), none, none⟩
      ⟨[a, b, c], rn, hist⟩
    ra.1.success = true
      ∧ ∃ stored, ra.1.plan = some stored ∧ ra.2.queue = [a, b, stored, c] := by
  have hgm : g ∈ groups := by simpa using hg
  have hpm : p.name ∈ plansFor g := by simpa using hp
  have hcl : clampIdx 3 (-1) = 2 := by decide
  have hcore : queueItemAddCore groups plansFor f
      ⟨some p, none, some u, some g, some (PosParam.intPos (-1)), none, none⟩
      ⟨[a, b, c], rn, hist⟩
      = AddOutcome.ok ⟨ItemType.plan, f, p.name, p.args, u, g⟩
          [a, b, ⟨ItemType.plan, f, p.name, p.args, u, g⟩, c] := by
    simp [queueItemAddCore, mkCandidate, placeItem, selCount, hgm, hpm, hcl, insertAt]
  refine ⟨?_, ⟨ItemType.plan, f, p.name, p.args, u, g⟩, ?_, ?_⟩
  · simp [queueItemAdd, hcore, echoReply]
  · simp [queueItemAdd, hcore, echoReply]
  · simp [queueItemAdd, hcore]

/-- Witness for claim C8 at the concrete sample three item queue. -/
theorem claim_C8_add_pos_minus_one_witness :
    (queueItemAdd sampleGroups samplePlansFor "uid-new"
      ⟨some samplePlan, none, some "Testing Script", some "admin",
       some (PosParam.intPos (-1)), none, none⟩
      ⟨[itemA, itemB, itemC], none, []⟩).1.success = true := by
  have h := claim_C8_add_pos_minus_one sampleGroups samplePlansFor "uid-new"
    "Testing Script" "admin" samplePlan itemA itemB itemC none []
    (by decide) (by decide)
  exact h.1

/-- Claim C1: out of range integer positions are handled asymmetrically:
queue_item_add clamps a position past either end (past the back appends,
past the front prepends) and succeeds, while queue_item_get and
queue_item_remove fail on an out of range position with the failed to get
an item and failed to remove an item messages, leaving the state
unchanged. -/
theorem claim_C1_out_of_range_asymmetry (groups : List String)
    (plansFor : String → List String) (f u g : String) (p : RawPlan)
    (s : QueueState) (pos : Int)
    (hg : groups.contains g = true)
    (hp : (plansFor g).contains p.name = true) :
    ((s.queue.length : Int) < pos →
        let ra := queueItemAdd groups plansFor f
          ⟨some p, none, some u, some g, some (PosParam.intPos pos), none, none⟩ s
        ra.1.success = true
          ∧ ∃ stored, ra.1.plan = some stored ∧ ra.2.queue = s.queue ++ [stored])
    ∧ (pos < -(s.queue.length : Int) →
        let ra := queueItemAdd groups plansFor f
          ⟨some p, none, some u, some g, some (PosParam.intPos pos), none, none⟩ s
        ra.1.success = true
          ∧ ∃ stored, ra.1.plan = some stored ∧ ra.2.queue = stored :: s.queue)
    ∧ (((s.queue.length : Int) ≤ pos ∨ pos < -(s.queue.length : Int)) →
        (queueItemGet ⟨some (PosParam.intPos pos), none⟩ s).success = false
        ∧ (∃ t1, (queueItemGet ⟨some (PosParam.intPos pos), none⟩ s).msg
              = failedToGetItemMsg ++ t1)
        ∧ (queueItemGet ⟨some (PosParam.intPos pos), none⟩ s).item = none
        ∧ (queueItemRemove ⟨some (PosParam.intPos pos), none⟩ s).1.success = false
        ∧ (∃ t2, (queueItemRemove ⟨some (PosParam.intPos pos), none⟩ s).1.msg
              = failedToRemoveItemMsg ++ t2)
        ∧ (queueItemRemove ⟨some (PosParam.intPos pos), none⟩ s).2 = s) := by
  have hgm : g ∈ groups := by simpa using hg
  have hpm : p.name ∈ plansFor g := by simpa using hp
  have hcore : ∀ hpos : Int,
      queueItemAddCore groups plansFor f
        ⟨some p, none, some u, some g, some (PosParam.intPos hpos), none, none⟩ s
      = AddOutcome.ok ⟨ItemType.plan, f, p.name, p.args, u, g⟩
          (insertAt s.queue (clampIdx s.queue.length hpos)
            ⟨ItemType.plan, f, p.name, p.args, u, g⟩) := by
    intro hpos
    simp [queueItemAddCore, mkCandidate, placeItem, selCount, hgm, hpm]
  refine ⟨?_, ?_, ?_⟩
  · intro hrange
    have hclamp : clampIdx s.queue.length pos = s.queue.length :=
      clampIdx_high s.queue.length pos (le_of_lt hrange)
    have hc := hcore pos
    rw [hclamp, insertAt_length] at hc
    refine ⟨?_, ⟨ItemType.plan, f, p.name, p.args, u, g⟩, ?_, ?_⟩
    · simp [queueItemAdd, hc, echoReply]
    · simp [queueItemAdd, hc, echoReply]
    · simp [queueItemAdd, hc]
  · intro hrange
    have hclamp : clampIdx s.queue.length pos = 0 :=
      clampIdx_low s.queue.length pos (by omega)
    have hc := hcore pos
    rw [hclamp, insertAt_zero] at hc
    refine ⟨?_, ⟨ItemType.plan, f, p.name, p.args, u, g⟩, ?_, ?_⟩
    · simp [queueItemAdd, hc, echoReply]
    · simp [queueItemAdd, hc, echoReply]
    · simp [queueItemAdd, hc]
  · intro hrange
    have hres : resolveSel ⟨some (PosParam.intPos pos), none⟩ s = SelResult.badPos := by
      have hcond : ¬ (0 ≤ (if pos < 0 then pos + (s.queue.length : Int) else pos)
          ∧ (if pos < 0 then pos + (s.queue.length : Int) else pos)
              < (s.queue.length : Int)) := by
        rcases hrange with h | h <;> by_cases hp0 : pos < 0 <;> simp [hp0] <;> omega
      simp [resolveSel, hcond]
    refine ⟨?_, ⟨": the position is out of range", ?_⟩, ?_, ?_,
      ⟨": the position is out of range", ?_⟩, ?_⟩
    · simp [queueItemGet, hres]
    · simp [queueItemGet, hres]
    · simp [queueItemGet, hres]
    · simp [queueItemRemove, hres]
    · simp [queueItemRemove, hres]
    · simp [queueItemRemove, hres]

/-- Witness for claim C1 at the concrete three item queue with positions
100, -100 for add and 3, -4 for get and remove. -/
theorem claim_C1_out_of_range_asymmetry_witness :
    ((queueItemAdd sampleGroups samplePlansFor "uid-new"
        ⟨some samplePlan, none, some "Testing Script", some "admin",
         some (PosParam.intPos 100), none, none⟩ sampleState3).1.success = true)
    ∧ ((queueItemAdd sampleGroups samplePlansFor "uid-new2"
        ⟨some samplePlan, none, some "Testing Script", some "admin",
         some (PosParam.intPos (-100)), none, none⟩ sampleState3).1.success = true)
    ∧ (queueItemGet ⟨some (PosParam.intPos 3), none⟩ sampleState3).success = false
    ∧ (queueItemRemove ⟨some (PosParam.intPos (-4)), none⟩ sampleState3).2
        = sampleState3 := by
  have h1 := claim_C1_out_of_range_asymmetry sampleGroups samplePlansFor
    "uid-new" "Testing Script" "admin" samplePlan sampleState3 100
    (by decide) (by decide)
  have h2 := claim_C1_out_of_range_asymmetry sampleGroups samplePlansFor
    "uid-new2" "Testing Script" "admin" samplePlan sampleState3 (-100)
    (by decide) (by decide)
  have h3 := claim_C1_out_of_range_asymmetry sampleGroups samplePlansFor
    "uid-x" "Testing Script" "admin" samplePlan sampleState3 3
    (by decide) (by decide)
  have h4 := claim_C1_out_of_range_asymmetry sampleGroups samplePlansFor
    "uid-x" "Testing Script" "admin" samplePlan sampleState3 (-4)
    (by decide) (by decide)
  exact ⟨(h1.1 (by decide)).1, (h2.2.1 (by decide)).1,
    (h3.2.2 (by decide)).1, (h4.2.2 (by decide)).2.2.2.2.2⟩

/-- Claim C10: queue_item_get and queue_item_remove without a position or
uid selector default to the back of the queue: on a non empty queue the
behaviour equals pos back, get returns the last item, remove removes it
and reports the reduced queue size. -/
theorem claim_C10_default_selector_is_back (s : QueueState)
    (h : s.queue ≠ []) :
    queueItemGet ⟨none, none⟩ s = queueItemGet ⟨some PosParam.back, none⟩ s
    ∧ (queueItemGet ⟨none, none⟩ s).success = true
    ∧ (queueItemGet ⟨none, none⟩ s).item = s.queue.getLast?
    ∧ queueItemRemove ⟨none, none⟩ s = queueItemRemove ⟨some PosParam.back, none⟩ s
    ∧ (queueItemRemove ⟨none, none⟩ s).1.success = true
    ∧ (queueItemRemove ⟨none, none⟩ s).1.item = s.queue.getLast?
    ∧ (queueItemRemove ⟨none, none⟩ s).1.qsize = some (s.queue.length - 1)
    ∧ (queueItemRemove ⟨none, none⟩ s).2.queue = s.queue.dropLast := by
  have hn : ¬ (s.queue.length = 0) := by
    intro hl
    exact h (List.length_eq_zero.mp hl)
  have hres : resolveSel ⟨none, none⟩ s = SelResult.found (s.queue.length - 1) := by
    simp [resolveSel, hn]
  have hlast : s.queue[s.queue.length - 1]? = s.queue.getLast? :=
    (List.getLast?_eq_getElem? s.queue).symm
  have herase : (s.queue.eraseIdx (s.queue.length - 1)).length = s.queue.length - 1 := by
    rw [List.length_eraseIdx]
    have hlt : s.queue.length - 1 < s.queue.length := by omega
    rw [if_pos hlt]
  have hdrop : s.queue.eraseIdx (s.queue.length - 1) = s.queue.dropLast :=
    (List.dropLast_eq_eraseIdx (by omega)).symm
  refine ⟨rfl, ?_, ?_, rfl, ?_, ?_, ?_, ?_⟩
  · simp [queueItemGet, hres]
  · simp [queueItemGet, hres, hlast]
  · simp [queueItemRemove, hres]
  · simp [queueItemRemove, hres, hlast]
  · simp [queueItemRemove, hres, herase]
  · simp [queueItemRemove, hres, hdrop]

/-- Witness for claim C10 at the concrete three item queue. -/
theorem claim_C10_default_selector_is_back_witness :
    (queueItemGet ⟨none, none⟩ sampleState3).item = some itemC
    ∧ (queueItemRemove ⟨none, none⟩ sampleState3).2.queue = [itemA, itemB] := by
  have h := claim_C10_default_selector_is_back sampleState3 (by decide)
  refine ⟨?_, ?_⟩
  · rw [h.2.2.1]
    decide
  · rw [h.2.2.2.2.2.2.2]
    decide

end QServer
